import Mathlib

/-!
Shallow embedding of `schnorr_keypair.go` from the go-secp256k1 repository
(package secp256k1) and verification of its specification claims.

Bytes are modelled as natural numbers, byte buffers as `List Nat`.
The native secp256k1 library (the "Curve Engine" of the spec) sits behind
a record of four primitives; its behavioural contract, which the spec
states at the interface boundary, is expressed as separate propositions.
Go's `(value, error)` return pairs are modelled as a pair of `Option`s so
that all four combinations are representable, and each operation also
reports the list of Curve Engine primitives it invoked.
-/

namespace Secp256k1

/-- Modelled from the spec: `SerializedPrivateKeySize` is declared in another
file of the repository (not under src/); the spec fixes the serialized
private key format to exactly 32 bytes. -/
def SerializedPrivateKeySize : Nat := 32

/-- Modelled from the spec: the secp256k1 group order, referred to as
`groupOrder` throughout the spec ("Group Order > key > 0"). -/
def groupOrder : Nat :=
  0xFFFFFFFFFFFFFFFFFFFFFFFFFFFFFFFEBAAEDCE6AF48A03BBFD25E8CD0364141

/-- Big-endian interpretation of a byte buffer as a natural number. -/
def bytesToNat (l : List Nat) : Nat :=
  l.foldl (fun acc b => acc * 256 + b) 0

/-- Big-endian encoding of a natural number into `k` bytes (the value is
taken modulo `256 ^ k`). -/
def natToBytes : Nat → Nat → List Nat
  | 0, _ => []
  | k + 1, x => natToBytes k (x / 256) ++ [x % 256]

/-- Modelled from the spec: the free helper `isZeroed(slice)` that the method
`SchnorrKeyPair.isZeroed` calls is declared in another file of the repository
(not under src/); per the spec a segment passes it exactly when it is
"all-zero". -/
def isZeroed (l : List Nat) : Bool :=
  l.all (· == 0)

/-- The internal 96-byte keypair record (`C.secp256k1_keypair` data). -/
structure SchnorrKeyPair where
  data : List Nat
  deriving Repr, DecidableEq

/-- Modelled from the spec: x-only public key value, opaque here
(declared in another file of the repository, not under src/). -/
structure SchnorrPublicKey where
  pubkey : List Nat
  deriving Repr, DecidableEq

/-- Modelled from the spec: 64-byte Schnorr signature value
(declared in another file of the repository, not under src/). -/
structure SchnorrSignature where
  signature : List Nat
  deriving Repr, DecidableEq

/-- The error values produced by the Go code, by kind (the spec's taxonomy
in §7).  `formatError` records the offending length, as the Go message does. -/
inductive KeyError where
  /-- the `errZeroedKeyPair` value: "the key pair is zeroed, which isn't a valid SchnorrKeyPair" -/
  | zeroedKey
  /-- the error "invalid SchnorrKeyPair (zero or bigger than the group order)" -/
  | invalidKey
  /-- the error "invalid private key length got %d, expected %d" -/
  | formatError (got : Nat)
  /-- the error "failed Adding to private key. Tweak is bigger than the order or the complement of the private key" -/
  | tweakOverflow
  /-- the error "the keypair contains invalid data" -/
  | curveError
  /-- the error "failed Signing. You should call `DeserializePrivateKey` before calling this" -/
  | signError
  /-- an error propagated from the randomness source (`crypto/rand`) -/
  | randomness
  deriving Repr, DecidableEq

/-- The four Curve Engine primitives the core consumes (spec §6). -/
inductive EngineCall where
  | keypairCreate
  | tweakAdd
  | xonlyPub
  | schnorrSign
  deriving Repr, DecidableEq

/-- The Curve Engine boundary (spec §6): each primitive either succeeds with
its output buffers or reports a non-success flag (`none`).  `xonly_pub`
additionally reports the parity as a raw integer, as the C API does. -/
structure CurveEngine where
  keypair_create : List Nat → Option (List Nat)
  xonly_tweak_add : List Nat → List Nat → Option (List Nat)
  xonly_pub : List Nat → Option (List Nat × Int)
  schnorrsig_sign : List Nat → List Nat → List Nat → Option (List Nat)

/-- A Go `(result, error)` pair together with the Curve Engine primitives the
call invoked, in order. -/
structure GoResult (α : Type) where
  val : Option α
  err : Option KeyError
  calls : List EngineCall
  deriving Repr, DecidableEq

/-- Go `func (key *SchnorrKeyPair) isZeroed() bool`: disjunction of the zeroed
checks on `data[:32]`, `data[32:64]`, `data[64:]`. -/
def SchnorrKeyPair.isZeroed (key : SchnorrKeyPair) : Bool :=
  Secp256k1.isZeroed (key.data.take 32) ||
    Secp256k1.isZeroed ((key.data.drop 32).take 32) ||
    Secp256k1.isZeroed (key.data.drop 64)

/-- Go `func DeserializePrivateKey(data *SerializedPrivateKey)`: delegates to
`secp256k1_keypair_create` and wraps failure in the invalid-key error. -/
def DeserializePrivateKey (eng : CurveEngine) (data : List Nat) :
    GoResult SchnorrKeyPair :=
  match eng.keypair_create data with
  | some d => ⟨some ⟨d⟩, none, [.keypairCreate]⟩
  | none => ⟨none, some .invalidKey, [.keypairCreate]⟩

/-- Go `func DeserializePrivateKeyFromSlice(data []byte)`: rejects any slice
whose length is not `SerializedPrivateKeySize` before doing anything else,
then copies into a fresh 32-byte array and delegates. -/
def DeserializePrivateKeyFromSlice (eng : CurveEngine) (data : List Nat) :
    GoResult SchnorrKeyPair :=
  if data.length ≠ SerializedPrivateKeySize then
    ⟨none, some (.formatError data.length), []⟩
  else
    DeserializePrivateKey eng data

/-- Go `func (key *SchnorrKeyPair) SerializePrivateKey()`: copies the first 32
bytes of the internal record. -/
def SerializePrivateKey (key : SchnorrKeyPair) : List Nat :=
  key.data.take 32

/-- Go `func (key *SchnorrKeyPair) Add(tweak [32]byte) error`: gated on the
zeroed check, then delegates to `secp256k1_keypair_xonly_tweak_add`.  The
Go method mutates in place and returns only an error; here the updated
keypair is returned as the value on success. -/
def Add (eng : CurveEngine) (key : SchnorrKeyPair) (tweak : List Nat) :
    GoResult SchnorrKeyPair :=
  if key.isZeroed then ⟨none, some .zeroedKey, []⟩
  else
    match eng.xonly_tweak_add key.data tweak with
    | some d => ⟨some ⟨d⟩, none, [.tweakAdd]⟩
    | none => ⟨none, some .tweakOverflow, [.tweakAdd]⟩

/-- Result of `parityBitToBool`: Go returns a `bool` for the literal values
0 and 1 and panics on anything else; `fatal` models the panic, which is not
an error value a caller could receive. -/
inductive ParityConv where
  | even
  | odd
  | fatal
  deriving Repr, DecidableEq

/-- Go `func parityBitToBool(parity C.int) bool`: `0 ↦ false`, `1 ↦ true`,
anything else panics (`fatal`). -/
def parityBitToBool (parity : Int) : ParityConv :=
  if parity = 0 then .even
  else if parity = 1 then .odd
  else .fatal

/-- Result of `schnorrPublicKeyInternal`: the Go function returns
`(pubkey, wasOdd, err)` and can additionally panic through
`parityBitToBool`. -/
structure PubResult where
  val : Option (SchnorrPublicKey × Bool)
  err : Option KeyError
  panicked : Bool
  calls : List EngineCall
  deriving Repr, DecidableEq

/-- Go `func (key *SchnorrKeyPair) schnorrPublicKeyInternal()`: gated on the
zeroed check, then extracts the x-only public key and parity via
`secp256k1_keypair_xonly_pub` and converts the parity bit. -/
def schnorrPublicKeyInternal (eng : CurveEngine) (key : SchnorrKeyPair) :
    PubResult :=
  if key.isZeroed then ⟨none, some .zeroedKey, false, []⟩
  else
    match eng.xonly_pub key.data with
    | none => ⟨none, some .curveError, false, [.xonlyPub]⟩
    | some (pk, parity) =>
      match parityBitToBool parity with
      | .even => ⟨some (⟨pk⟩, false), none, false, [.xonlyPub]⟩
      | .odd => ⟨some (⟨pk⟩, true), none, false, [.xonlyPub]⟩
      | .fatal => ⟨none, none, true, [.xonlyPub]⟩

/-- Go `func (key *SchnorrKeyPair) SchnorrPublicKey()`: drops the parity bit
from the internal result. -/
def SchnorrPublicKey' (eng : CurveEngine) (key : SchnorrKeyPair) :
    PubResult :=
  let r := schnorrPublicKeyInternal eng key
  ⟨r.val, r.err, r.panicked, r.calls⟩

/-- Go `func (key *SchnorrKeyPair) schnorrSignInternal(hash, auxiliaryRand)`:
gated on the zeroed check, then delegates to `secp256k1_schnorrsig_sign`
with the BIP-340 nonce function. -/
def schnorrSignInternal (eng : CurveEngine) (key : SchnorrKeyPair)
    (hash : List Nat) (auxiliaryRand : List Nat) :
    GoResult SchnorrSignature :=
  if key.isZeroed then ⟨none, some .zeroedKey, []⟩
  else
    match eng.schnorrsig_sign hash key.data auxiliaryRand with
    | some sig => ⟨some ⟨sig⟩, none, [.schnorrSign]⟩
    | none => ⟨none, some .signError, [.schnorrSign]⟩

/-- One call to the Randomness Source (`crypto/rand.Read` on a 32-byte
buffer): the buffer contents after the call, the reported byte count `n`,
and whether a generator error (`err != nil`) was reported. -/
structure RandCall where
  bytes : List Nat
  n : Nat
  err : Bool
  deriving Repr, DecidableEq

/-- Go `func (key *SchnorrKeyPair) SchnorrSign(hash *Hash)`: draws 32 bytes of
auxiliary randomness, returns `(nil, err)` if the read errored or was
short, otherwise delegates to `schnorrSignInternal`.  Note the Go code
returns the (possibly nil) `err` value itself in the guard branch. -/
def SchnorrSign (eng : CurveEngine) (r : RandCall) (key : SchnorrKeyPair)
    (hash : List Nat) : GoResult SchnorrSignature :=
  if r.err || r.n ≠ 32 then
    ⟨none, if r.err then some .randomness else none, []⟩
  else
    schnorrSignInternal eng key hash r.bytes

/-- The retry loop of `func GeneratePrivateKey()`.  `src i` is the result of
the `i`-th call to `crypto/rand.Read`; the outer `Option` is fuel: `none`
means the loop did not terminate within `fuel` iterations.  Each iteration
returns `(nil, err)` on a short or errored read (`err` may be nil), returns
the keypair on successful deserialization, and otherwise retries. -/
def generateLoop (eng : CurveEngine) (src : Nat → RandCall) :
    Nat → Nat → Option (GoResult SchnorrKeyPair)
  | 0, _ => none
  | fuel + 1, i =>
    if (src i).err || (src i).n ≠ 32 then
      some ⟨none, if (src i).err then some .randomness else none, []⟩
    else
      match (DeserializePrivateKey eng (src i).bytes).err with
      | none => some ⟨(DeserializePrivateKey eng (src i).bytes).val, none,
          (DeserializePrivateKey eng (src i).bytes).calls⟩
      | some _ => (generateLoop eng src fuel (i + 1)).map
          (fun g => ⟨g.val, g.err,
            (DeserializePrivateKey eng (src i).bytes).calls ++ g.calls⟩)

/-- Go `func GeneratePrivateKey()`: run the retry loop from the first
randomness draw. -/
def GeneratePrivateKey (eng : CurveEngine) (src : Nat → RandCall)
    (fuel : Nat) : Option (GoResult SchnorrKeyPair) :=
  generateLoop eng src fuel 0

/-! ### The Curve Engine contract, stated at the interface boundary

The native library is outside the repository's Go sources, so its
behaviour is modelled from the spec (§3, §4.1, §6) as propositions about a
`CurveEngine`; theorems that depend on the engine's behaviour take the
relevant proposition as a hypothesis. -/

/-- Modelled from the spec: `secp256k1_keypair_create` "will verify it's a
valid private key (Group Order > key > 0)" and succeeds on every in-range
secret. -/
def CurveEngine.CreateSucceedsOnValid (eng : CurveEngine) : Prop :=
  ∀ s, s.length = 32 → 0 < bytesToNat s → bytesToNat s < groupOrder →
    (eng.keypair_create s).isSome

/-- Modelled from the spec: the keypair record combines "a 32-byte secret
scalar and a 64-byte cached public-point representation", and
`SerializePrivateKey` "extracts the 32-byte secret scalar", so a created
record carries the secret bytes as its first segment. -/
def CurveEngine.CreateKeepsSecret (eng : CurveEngine) : Prop :=
  ∀ s d, eng.keypair_create s = some d → d.take 32 = s

/-- Modelled from the spec: a keypair "produced only by the Curve Engine
from a validated secret" is "fully valid", so none of its three 32-byte
segments is all-zero. -/
def CurveEngine.CreateGivesNonzeroed (eng : CurveEngine) : Prop :=
  ∀ s d, eng.keypair_create s = some d →
    (SchnorrKeyPair.mk d).isZeroed = false

/-- Modelled from the spec: a successful tweak addition on a fully valid
keypair yields a fully valid keypair (no segment all-zero). -/
def CurveEngine.TweakKeepsNonzeroed (eng : CurveEngine) : Prop :=
  ∀ d t d', (SchnorrKeyPair.mk d).isZeroed = false →
    eng.xonly_tweak_add d t = some d' →
    (SchnorrKeyPair.mk d').isZeroed = false

/-- Modelled from the spec: on the no-parity-flip path, tweak addition
computes "new secret = (old secret + tweak) mod groupOrder" in the secret
segment of the record. -/
def CurveEngine.TweakAddsModOrder (eng : CurveEngine) : Prop :=
  ∀ d t d', eng.xonly_tweak_add d t = some d' →
    bytesToNat (d'.take 32) =
      (bytesToNat (d.take 32) + bytesToNat t) % groupOrder

/-- Modelled from the spec: `secp256k1_schnorrsig_sign` produces a fixed
64-byte signature buffer. -/
def CurveEngine.SignLen64 (eng : CurveEngine) : Prop :=
  ∀ h d a s, eng.schnorrsig_sign h d a = some s → s.length = 64

/-! ### Arithmetic and list lemmas about the byte encodings -/

theorem bytesToNat_append_singleton (l : List Nat) (b : Nat) :
    bytesToNat (l ++ [b]) = bytesToNat l * 256 + b := by
  simp [bytesToNat, List.foldl_append]

theorem natToBytes_length (k x : Nat) : (natToBytes k x).length = k := by
  induction k generalizing x with
  | zero => rfl
  | succ k ih => simp [natToBytes, ih]

theorem bytesToNat_natToBytes (k x : Nat) :
    bytesToNat (natToBytes k x) = x % 256 ^ k := by
  induction k generalizing x with
  | zero => simp [natToBytes, bytesToNat, Nat.mod_one]
  | succ k ih =>
    rw [natToBytes, bytesToNat_append_singleton, ih, pow_succ,
      Nat.mul_comm (256 ^ k) 256, Nat.mod_mul]
    ring

theorem foldl_bytes_all_zero (l : List Nat) :
    ∀ acc, (∀ b ∈ l, b = 0) →
      l.foldl (fun acc b => acc * 256 + b) acc = acc * 256 ^ l.length := by
  induction l with
  | nil => intro acc _; simp
  | cons b l ih =>
    intro acc h
    have hb0 : b = 0 := h b (by simp)
    have h' : ∀ c ∈ l, c = 0 := fun c hc => h c (by simp [hc])
    rw [List.foldl_cons, ih (acc * 256 + b) h', hb0, List.length_cons]
    ring

theorem bytesToNat_eq_zero_of_all_zero (l : List Nat)
    (h : ∀ b ∈ l, b = 0) : bytesToNat l = 0 := by
  simpa [bytesToNat] using foldl_bytes_all_zero l 0 h

theorem isZeroed_eq_false_of_pos (l : List Nat) (h : 0 < bytesToNat l) :
    isZeroed l = false := by
  by_contra hz
  have hall : ∀ b ∈ l, b = 0 := by
    have : isZeroed l = true := by
      cases hiz : isZeroed l
      · exact absurd hiz hz
      · rfl
    simpa [isZeroed, List.all_eq_true] using this
  have := bytesToNat_eq_zero_of_all_zero l hall
  omega

theorem groupOrder_lt_pow : groupOrder < 256 ^ 32 := by
  norm_num [groupOrder]

theorem groupOrder_pos : 0 < groupOrder := by
  norm_num [groupOrder]

/-! ### A concrete model engine

Used to instantiate the contract hypotheses of the theorems below on
concrete inputs.  Its secret-segment arithmetic follows the spec's additive
model; the cached public-point representation is a placeholder whose halves
contain nonzero bytes, as the cached representation of a real curve point
does. -/

/-- The placeholder 64-byte cached public-point representation. -/
def specPub : List Nat := List.replicate 64 1

/-- Modelled from the spec: a concrete Curve Engine realising the boundary
contract.  Creation validates `0 < secret < groupOrder`; tweak addition
stores `(secret + tweak) mod groupOrder` in the secret segment and keeps
the rest of the record; signing emits a 64-byte buffer determined by its
inputs. -/
def specEngine : CurveEngine where
  keypair_create s :=
    if s.length = 32 ∧ 0 < bytesToNat s ∧ bytesToNat s < groupOrder then
      some (s ++ specPub)
    else none
  xonly_tweak_add d t :=
    if t.length = 32 ∧ bytesToNat t < groupOrder ∧
        (bytesToNat (d.take 32) + bytesToNat t) % groupOrder ≠ 0 then
      some (natToBytes 32 ((bytesToNat (d.take 32) + bytesToNat t) % groupOrder)
        ++ d.drop 32)
    else none
  xonly_pub d :=
    if d.length = 96 then some ((d.drop 32).take 32, 0) else none
  schnorrsig_sign h d a :=
    if h.length = 32 ∧ a.length = 32 then some (h ++ a) else none

theorem specEngine_create_succeeds : specEngine.CreateSucceedsOnValid := by
  intro s hl h0 ho
  simp [specEngine, hl, h0, ho]

theorem specEngine_create_secret : specEngine.CreateKeepsSecret := by
  intro s d h
  by_cases hc : s.length = 32 ∧ 0 < bytesToNat s ∧ bytesToNat s < groupOrder
  · simp only [specEngine, if_pos hc, Option.some.injEq] at h
    rw [← h]
    exact List.take_left' hc.1
  · simp [specEngine, hc] at h

theorem specEngine_create_nonzeroed : specEngine.CreateGivesNonzeroed := by
  intro s d h
  by_cases hc : s.length = 32 ∧ 0 < bytesToNat s ∧ bytesToNat s < groupOrder
  · simp only [specEngine, if_pos hc, Option.some.injEq] at h
    obtain ⟨hl, h0, _⟩ := hc
    have e1 : (s ++ specPub).take 32 = s := List.take_left' hl
    have e2 : (s ++ specPub).drop 32 = specPub := List.drop_left' hl
    have e3 : (s ++ specPub).drop 64 = specPub.drop 32 := by
      rw [show (64 : Nat) = 32 + 32 from rfl, ← List.drop_drop, e2]
    have z1 := isZeroed_eq_false_of_pos s h0
    rw [← h]
    simp only [SchnorrKeyPair.isZeroed, e1, e2, e3, z1]
    decide
  · simp [specEngine, hc] at h

theorem specEngine_tweak_nonzeroed : specEngine.TweakKeepsNonzeroed := by
  intro d t d' hnz h
  by_cases hc : t.length = 32 ∧ bytesToNat t < groupOrder ∧
      (bytesToNat (d.take 32) + bytesToNat t) % groupOrder ≠ 0
  · simp only [specEngine, if_pos hc, Option.some.injEq] at h
    obtain ⟨htl, hto, hv⟩ := hc
    simp only [SchnorrKeyPair.isZeroed, Bool.or_eq_false_iff] at hnz
    obtain ⟨⟨_, hz2⟩, hz3⟩ := hnz
    have hA : (natToBytes 32 ((bytesToNat (d.take 32) + bytesToNat t) %
        groupOrder)).length = 32 := natToBytes_length 32 _
    have e1 : d'.take 32 = natToBytes 32 ((bytesToNat (d.take 32) +
        bytesToNat t) % groupOrder) := by rw [← h]; exact List.take_left' hA
    have e2 : d'.drop 32 = d.drop 32 := by rw [← h]; exact List.drop_left' hA
    have e3 : d'.drop 64 = d.drop 64 := by
      rw [show (64 : Nat) = 32 + 32 from rfl, ← List.drop_drop, e2,
        List.drop_drop]
    have hvlt : (bytesToNat (d.take 32) + bytesToNat t) % groupOrder <
        256 ^ 32 := lt_trans (Nat.mod_lt _ groupOrder_pos) groupOrder_lt_pow
    have hApos : 0 < bytesToNat (natToBytes 32 ((bytesToNat (d.take 32) +
        bytesToNat t) % groupOrder)) := by
      rw [bytesToNat_natToBytes, Nat.mod_eq_of_lt hvlt]
      omega
    simp only [SchnorrKeyPair.isZeroed, e1, e2, e3,
      isZeroed_eq_false_of_pos _ hApos, hz2, hz3]
    decide
  · simp [specEngine, hc] at h

theorem specEngine_tweak_mod : specEngine.TweakAddsModOrder := by
  intro d t d' h
  by_cases hc : t.length = 32 ∧ bytesToNat t < groupOrder ∧
      (bytesToNat (d.take 32) + bytesToNat t) % groupOrder ≠ 0
  · simp only [specEngine, if_pos hc, Option.some.injEq] at h
    rw [← h, List.take_left' (natToBytes_length 32 _), bytesToNat_natToBytes]
    exact Nat.mod_eq_of_lt
      (lt_trans (Nat.mod_lt _ groupOrder_pos) groupOrder_lt_pow)
  · simp [specEngine, hc] at h

theorem specEngine_sign_len : specEngine.SignLen64 := by
  intro hh d a s hs
  by_cases hc : hh.length = 32 ∧ a.length = 32
  · simp only [specEngine, if_pos hc, Option.some.injEq] at hs
    rw [← hs]
    simp [hc.1, hc.2]
  · simp [specEngine, hc] at hs

/-! ### Concrete values used by the witnesses -/

/-- The 32-byte big-endian encoding of the secret value 1. -/
def oneKeyBytes : List Nat := List.replicate 31 0 ++ [1]

/-- The keypair the model engine creates from `oneKeyBytes`. -/
def kpOne : SchnorrKeyPair := ⟨oneKeyBytes ++ specPub⟩

/-- The all-zero 96-byte keypair record (simulated zeroed state). -/
def zeroKp : SchnorrKeyPair := ⟨List.replicate 96 0⟩

/-- A randomness-source call that reports a short read with a nil error. -/
def shortRead : RandCall := ⟨List.replicate 32 0, 0, false⟩

/-- A randomness source whose every call is a nil-error short read. -/
def shortSrc : Nat → RandCall := fun _ => shortRead

/-- A randomness-source call that succeeds with an all-zero buffer. -/
def fullRead : RandCall := ⟨List.replicate 32 0, 32, false⟩

/-! ### Claims -/

/-- Spec-following rendering of the claim's reading of the zeroed predicate:
"true iff every one of the three 32-byte internal segments is all-zero".
Kept distinct from `SchnorrKeyPair.isZeroed`, which is translated from the
source, so the two can be compared. -/
def allSegmentsZeroed (key : SchnorrKeyPair) : Bool :=
  isZeroed (key.data.take 32) && isZeroed ((key.data.drop 32).take 32) &&
    isZeroed (key.data.drop 64)

/-- C1, counterexample: a keypair whose secret segment is all-zero while the
cached public representation contains a nonzero byte.  The source's
`isZeroed` — a disjunction over the three segments — returns `true` on it,
whereas the claim ("true iff every segment is all-zero; false for every
keypair in which at least one segment contains a nonzero byte") requires
`false`. -/
theorem c1_counterexample :
    (SchnorrKeyPair.mk
        (List.replicate 32 0 ++ 1 :: List.replicate 63 0)).isZeroed = true ∧
    allSegmentsZeroed
      (SchnorrKeyPair.mk
        (List.replicate 32 0 ++ 1 :: List.replicate 63 0)) = false := by
  decide

/-- C1, amended: `isZeroed` returns `true` iff at least one of the three
32-byte internal segments (the secret, and the two halves of the cached
public representation) is all-zero; equivalently, it returns `false`
exactly on the keypairs in which each of the three segments contains a
nonzero byte. -/
theorem c1_isZeroed_iff_some_segment_zero (key : SchnorrKeyPair) :
    key.isZeroed = true ↔
      (∀ b ∈ key.data.take 32, b = 0) ∨
      (∀ b ∈ (key.data.drop 32).take 32, b = 0) ∨
      (∀ b ∈ key.data.drop 64, b = 0) := by
  simp only [SchnorrKeyPair.isZeroed, isZeroed, Bool.or_eq_true,
    List.all_eq_true, beq_iff_eq]
  tauto

/-- C2, failing evaluation: when the Randomness Source reports a short read
(0 of 32 bytes written) with a nil generator error, `GeneratePrivateKey`
and `SchnorrSign` each return a nil result together with a nil error
instead of failing with a randomness error: the Go guard
`if err != nil || n != len(...)` returns the nil `err` value itself. -/
theorem c2_short_read_nil_nil :
    GeneratePrivateKey specEngine shortSrc 1 =
      some ⟨none, none, []⟩ ∧
    SchnorrSign specEngine shortRead kpOne (List.replicate 32 0) =
      ⟨none, none, []⟩ := by
  constructor
  · rfl
  · rfl

/-- C3: on any keypair whose 96-byte internal record is all-zero, `Add`,
`schnorrPublicKeyInternal` (and its wrapper `SchnorrPublicKey`), and
`schnorrSignInternal` (and `SchnorrSign`, once its auxiliary-randomness
draw succeeded) each fail with the zeroed-key error, and none of them
invokes any Curve Engine primitive (empty call trace). -/
theorem c3_zeroed_gating (eng : CurveEngine) (key : SchnorrKeyPair)
    (hk : key.data = List.replicate 96 0) (tweak hash aux : List Nat)
    (r : RandCall) (hr : r.err = false) (hn : r.n = 32) :
    Add eng key tweak = ⟨none, some .zeroedKey, []⟩ ∧
    schnorrPublicKeyInternal eng key = ⟨none, some .zeroedKey, false, []⟩ ∧
    SchnorrPublicKey' eng key = ⟨none, some .zeroedKey, false, []⟩ ∧
    schnorrSignInternal eng key hash aux = ⟨none, some .zeroedKey, []⟩ ∧
    SchnorrSign eng r key hash = ⟨none, some .zeroedKey, []⟩ := by
  have hz : key.isZeroed = true := by
    simp only [SchnorrKeyPair.isZeroed, hk]
    decide
  refine ⟨?_, ?_, ?_, ?_, ?_⟩ <;>
    simp [Add, schnorrPublicKeyInternal, SchnorrPublicKey',
      schnorrSignInternal, SchnorrSign, hz, hr, hn]

/-- C3, witness: the gating theorem applied to the all-zero keypair with the
model engine and a successful randomness draw. -/
theorem c3_zeroed_gating_witness :
    Add specEngine zeroKp (List.replicate 32 0) =
      ⟨none, some .zeroedKey, []⟩ ∧
    schnorrPublicKeyInternal specEngine zeroKp =
      ⟨none, some .zeroedKey, false, []⟩ ∧
    SchnorrPublicKey' specEngine zeroKp =
      ⟨none, some .zeroedKey, false, []⟩ ∧
    schnorrSignInternal specEngine zeroKp (List.replicate 32 0)
        (List.replicate 32 0) = ⟨none, some .zeroedKey, []⟩ ∧
    SchnorrSign specEngine fullRead zeroKp (List.replicate 32 0) =
      ⟨none, some .zeroedKey, []⟩ :=
  c3_zeroed_gating specEngine zeroKp rfl (List.replicate 32 0)
    (List.replicate 32 0) (List.replicate 32 0) fullRead rfl rfl

/-- C4: on every input slice whose length differs from 32,
`DeserializePrivateKeyFromSlice` fails with the length-format error —
recording the offending length, and distinct from the value-range
invalid-key error — with an empty Curve Engine call trace. -/
theorem c4_length_rejection (eng : CurveEngine) (data : List Nat)
    (h : data.length ≠ 32) :
    DeserializePrivateKeyFromSlice eng data =
      ⟨none, some (.formatError data.length), []⟩ ∧
    KeyError.formatError data.length ≠ KeyError.invalidKey := by
  constructor
  · simp [DeserializePrivateKeyFromSlice, SerializedPrivateKeySize, h]
  · simp

/-- C4, witness: the rejection theorem applied to a 31-byte input with the
model engine. -/
theorem c4_length_rejection_witness :
    DeserializePrivateKeyFromSlice specEngine (List.replicate 31 0) =
      ⟨none, some (.formatError (List.replicate 31 0).length), []⟩ ∧
    KeyError.formatError (List.replicate 31 0).length ≠
      KeyError.invalidKey :=
  c4_length_rejection specEngine (List.replicate 31 0) (by decide)

/-- C10: for every engine and every input, `DeserializePrivateKey` and
`DeserializePrivateKeyFromSlice` return either a present keypair with a
nil error or a nil keypair with a present error — never both present and
never both nil. -/
theorem c10_deserialize_exclusive (eng : CurveEngine) (data : List Nat) :
    (((DeserializePrivateKey eng data).val.isSome = true ∧
        (DeserializePrivateKey eng data).err = none) ∨
      ((DeserializePrivateKey eng data).val = none ∧
        (DeserializePrivateKey eng data).err.isSome = true)) ∧
    (((DeserializePrivateKeyFromSlice eng data).val.isSome = true ∧
        (DeserializePrivateKeyFromSlice eng data).err = none) ∨
      ((DeserializePrivateKeyFromSlice eng data).val = none ∧
        (DeserializePrivateKeyFromSlice eng data).err.isSome = true)) := by
  constructor
  · cases h : eng.keypair_create data <;>
      simp [DeserializePrivateKey, h]
  · by_cases hl : data.length ≠ SerializedPrivateKeySize
    · simp [DeserializePrivateKeyFromSlice, hl]
    · cases h : eng.keypair_create data <;>
        simp [DeserializePrivateKeyFromSlice, DeserializePrivateKey, hl, h]

/-- Successful `DeserializePrivateKey` means the engine created the
returned record. -/
theorem DeserializePrivateKey_val_some (eng : CurveEngine) (s : List Nat)
    (kp : SchnorrKeyPair)
    (h : (DeserializePrivateKey eng s).val = some kp) :
    eng.keypair_create s = some kp.data := by
  cases hm : eng.keypair_create s with
  | none => simp [DeserializePrivateKey, hm] at h
  | some d =>
    simp only [DeserializePrivateKey, hm, Option.some.injEq] at h
    rw [← h]

/-- Successful `Add` means the zeroed gate passed and the engine produced
the returned record. -/
theorem Add_val_some (eng : CurveEngine) (key key' : SchnorrKeyPair)
    (t : List Nat) (h : (Add eng key t).val = some key') :
    eng.xonly_tweak_add key.data t = some key'.data := by
  by_cases hz : key.isZeroed = true
  · simp [Add, hz] at h
  · cases hm : eng.xonly_tweak_add key.data t with
    | none => simp [Add, hz, hm] at h
    | some d =>
      simp only [Add, hz, Bool.false_eq_true, if_false, hm,
        Option.some.injEq] at h
      rw [← h]

/-- C5: for every engine meeting the creation contract and every 32-byte
big-endian secret strictly between zero and the group order,
`DeserializePrivateKey` succeeds (nil error), and `SerializePrivateKey` on
the resulting keypair returns exactly the original 32 secret bytes. -/
theorem c5_serialize_roundtrip (eng : CurveEngine)
    (hcreate : eng.CreateSucceedsOnValid) (hsecret : eng.CreateKeepsSecret)
    (s : List Nat) (hs : s.length = 32) (h0 : 0 < bytesToNat s)
    (ho : bytesToNat s < groupOrder) :
    (DeserializePrivateKey eng s).err = none ∧
    (DeserializePrivateKey eng s).val.map SerializePrivateKey = some s := by
  obtain ⟨d, hd⟩ := Option.isSome_iff_exists.mp (hcreate s hs h0 ho)
  have hts := hsecret s d hd
  simp [DeserializePrivateKey, hd, SerializePrivateKey, hts]

/-- C5, witness: the round-trip theorem applied to the model engine and the
secret of value 1. -/
theorem c5_serialize_roundtrip_witness :
    (DeserializePrivateKey specEngine oneKeyBytes).err = none ∧
    (DeserializePrivateKey specEngine oneKeyBytes).val.map
      SerializePrivateKey = some oneKeyBytes :=
  c5_serialize_roundtrip specEngine specEngine_create_succeeds
    specEngine_create_secret oneKeyBytes (by decide) (by decide) (by decide)

/-- C6: for every engine whose tweak addition follows the spec's additive
no-parity-flip model, applying `Add t1` and then `Add t2` to one copy of a
keypair, and applying once to another copy a tweak `t12` that encodes
`(t1 + t2) mod groupOrder`, when all the `Add` calls succeed, leaves both
copies with the same secret scalar modulo the group order. -/
theorem c6_tweak_add_associativity (eng : CurveEngine)
    (hmod : eng.TweakAddsModOrder) (kp kp1 kp12 kpSum : SchnorrKeyPair)
    (t1 t2 t12 : List Nat)
    (h1 : (Add eng kp t1).val = some kp1)
    (h2 : (Add eng kp1 t2).val = some kp12)
    (h12 : bytesToNat t12 = (bytesToNat t1 + bytesToNat t2) % groupOrder)
    (hSum : (Add eng kp t12).val = some kpSum) :
    bytesToNat (SerializePrivateKey kp12) % groupOrder =
      bytesToNat (SerializePrivateKey kpSum) % groupOrder := by
  have e1 := hmod _ _ _ (Add_val_some eng kp kp1 t1 h1)
  have e2 := hmod _ _ _ (Add_val_some eng kp1 kp12 t2 h2)
  have eS := hmod _ _ _ (Add_val_some eng kp kpSum t12 hSum)
  simp only [SerializePrivateKey]
  rw [e2, e1, eS, h12, Nat.mod_mod_of_dvd _ dvd_rfl,
    Nat.mod_mod_of_dvd _ dvd_rfl, Nat.mod_add_mod, Nat.add_mod_mod,
    Nat.add_assoc]

/-- C6, witness: the associativity theorem applied to the model engine, the
keypair of secret 1 and the tweaks 2, 3, and 5 = (2 + 3) mod groupOrder;
both paths end with the secret 6 = (1 + 2) + 3 = 1 + 5. -/
theorem c6_tweak_add_associativity_witness :
    bytesToNat (SerializePrivateKey ⟨natToBytes 32 6 ++ specPub⟩) %
        groupOrder =
      bytesToNat (SerializePrivateKey ⟨natToBytes 32 6 ++ specPub⟩) %
        groupOrder :=
  c6_tweak_add_associativity specEngine specEngine_tweak_mod kpOne
    ⟨natToBytes 32 3 ++ specPub⟩ ⟨natToBytes 32 6 ++ specPub⟩
    ⟨natToBytes 32 6 ++ specPub⟩ (List.replicate 31 0 ++ [2])
    (List.replicate 31 0 ++ [3]) (List.replicate 31 0 ++ [5])
    (by decide) (by decide) (by decide) (by decide)

/-- C7: `parityBitToBool` converts the parity integer 0 to even (`false`)
and 1 to odd (`true`), and on every other integer it is the fatal panic
outcome — a distinguished non-return that is neither a parity value nor
any recoverable `KeyError`. -/
theorem c7_parity_conversion (p : Int) (h0 : p ≠ 0) (h1 : p ≠ 1) :
    parityBitToBool 0 = .even ∧ parityBitToBool 1 = .odd ∧
    parityBitToBool p = .fatal := by
  refine ⟨by decide, by decide, ?_⟩
  simp [parityBitToBool, h0, h1]

/-- C7, witness: the conversion theorem applied at the out-of-range parity
value 42 (the sentinel the Go code initialises `cParity` with). -/
theorem c7_parity_conversion_witness :
    parityBitToBool 0 = .even ∧ parityBitToBool 1 = .odd ∧
    parityBitToBool 42 = .fatal :=
  c7_parity_conversion 42 (by decide) (by decide)

/-- C8: for every engine meeting the 64-byte signature contract, every
valid (non-zeroed) keypair, 32-byte message hash and 32-byte auxiliary
randomness, any two invocations of the signing routine on the identical
`(keypair, hash, aux)` triple return the identical signature, and that
signature is exactly 64 bytes. -/
theorem c8_sign_deterministic (eng : CurveEngine) (hlen : eng.SignLen64)
    (key : SchnorrKeyPair) (hash aux : List Nat)
    (hz : key.isZeroed = false) (hh : hash.length = 32)
    (ha : aux.length = 32) (sig₁ sig₂ : SchnorrSignature)
    (hs1 : (schnorrSignInternal eng key hash aux).val = some sig₁)
    (hs2 : (schnorrSignInternal eng key hash aux).val = some sig₂) :
    sig₁ = sig₂ ∧ sig₁.signature.length = 64 := by
  constructor
  · rw [hs1] at hs2
    exact Option.some.inj hs2
  · cases hm : eng.schnorrsig_sign hash key.data aux with
    | none => simp [schnorrSignInternal, hz, hm] at hs1
    | some l =>
      simp only [schnorrSignInternal, hz, Bool.false_eq_true, if_false, hm,
        Option.some.injEq] at hs1
      rw [← hs1]
      exact hlen hash key.data aux l hm

/-- C8, witness: the determinism theorem applied to the model engine, the
keypair of secret 1, the all-zero hash and all-zero auxiliary randomness. -/
theorem c8_sign_deterministic_witness :
    (SchnorrSignature.mk (List.replicate 32 0 ++ List.replicate 32 0)) =
      ⟨List.replicate 32 0 ++ List.replicate 32 0⟩ ∧
    (SchnorrSignature.mk
      (List.replicate 32 0 ++ List.replicate 32 0)).signature.length = 64 :=
  c8_sign_deterministic specEngine specEngine_sign_len kpOne
    (List.replicate 32 0) (List.replicate 32 0) (by decide) (by decide)
    (by decide) ⟨List.replicate 32 0 ++ List.replicate 32 0⟩
    ⟨List.replicate 32 0 ++ List.replicate 32 0⟩ (by decide) (by decide)

/-- C9: the keypair lifecycle is the two-state machine {Zeroed, Valid}:
with an engine meeting the validity contract, every keypair returned by a
successful `DeserializePrivateKey` is non-zeroed (Valid), every keypair
returned by a successful `GeneratePrivateKey` loop is non-zeroed, and a
successful `Add` on a non-zeroed keypair returns a non-zeroed keypair —
no operation of the core turns a Valid keypair back into a Zeroed one. -/
theorem c9_lifecycle (eng : CurveEngine)
    (hc : eng.CreateGivesNonzeroed) (ht : eng.TweakKeepsNonzeroed) :
    (∀ s kp, (DeserializePrivateKey eng s).val = some kp →
      kp.isZeroed = false) ∧
    (∀ src fuel i g kp, generateLoop eng src fuel i = some g →
      g.val = some kp → kp.isZeroed = false) ∧
    (∀ kp t kp', kp.isZeroed = false → (Add eng kp t).val = some kp' →
      kp'.isZeroed = false) := by
  have hdeser : ∀ s kp, (DeserializePrivateKey eng s).val = some kp →
      kp.isZeroed = false := by
    intro s kp h
    exact hc s kp.data (DeserializePrivateKey_val_some eng s kp h)
  refine ⟨hdeser, ?_, ?_⟩
  · intro src fuel
    induction fuel with
    | zero => intro i g kp h _; simp [generateLoop] at h
    | succ fuel ih =>
      intro i g kp h hval
      rw [generateLoop] at h
      split at h
      · rw [Option.some.injEq] at h
        rw [← h] at hval
        simp at hval
      · split at h
        · rw [Option.some.injEq] at h
          rw [← h] at hval
          exact hdeser (src i).bytes kp hval
        · obtain ⟨g', hg', hmapeq⟩ := Option.map_eq_some'.mp h
          rw [← hmapeq] at hval
          exact ih (i + 1) g' kp hg' hval
  · intro kp t kp' hz hadd
    exact ht kp.data t kp'.data hz (Add_val_some eng kp kp' t hadd)

/-- A randomness source that always returns the 32 bytes encoding 2. -/
def twoSrc : Nat → RandCall := fun _ => ⟨List.replicate 31 0 ++ [2], 32, false⟩

/-- C9, witness: the lifecycle theorem applied to the model engine — the
keypair deserialized from the secret 1, the keypair the generation loop
builds from a source returning the secret 2, and the keypair a successful
tweak of `kpOne` by 2 returns, are all in the Valid (non-zeroed) state. -/
theorem c9_lifecycle_witness :
    kpOne.isZeroed = false ∧
    (SchnorrKeyPair.mk ((List.replicate 31 0 ++ [2]) ++ specPub)).isZeroed
      = false ∧
    (SchnorrKeyPair.mk (natToBytes 32 3 ++ specPub)).isZeroed = false :=
  ⟨(c9_lifecycle specEngine specEngine_create_nonzeroed
      specEngine_tweak_nonzeroed).1 oneKeyBytes kpOne (by decide),
   (c9_lifecycle specEngine specEngine_create_nonzeroed
      specEngine_tweak_nonzeroed).2.1 twoSrc 1 0
      ⟨some ⟨(List.replicate 31 0 ++ [2]) ++ specPub⟩, none, [.keypairCreate]⟩
      ⟨(List.replicate 31 0 ++ [2]) ++ specPub⟩ (by decide) (by decide),
   (c9_lifecycle specEngine specEngine_create_nonzeroed
      specEngine_tweak_nonzeroed).2.2 kpOne (List.replicate 31 0 ++ [2])
      ⟨natToBytes 32 3 ++ specPub⟩ (by decide) (by decide)⟩

end Secp256k1
